import Mathlib

/-!
Verification of the VMware_Inventory scan orchestrator.

This file shallowly embeds the code of `services/connection_manager.py`
(the scan orchestrator: `_scan_single`, `_scan_sequential`,
`_scan_parallel`, `_run_scan`, profile registry operations and the
`ConsolidatedResult` / `ScanProgress` data entities) and the fallback
credential path of `utils/credentials.py` (`encrypt_password` /
`decrypt_password` via base64), and proves the specification claims
about them.

Modelling conventions:
* Python mutation of `ConnectionProfile` objects becomes explicit state
  passing: scan functions return the updated profile.
* The asynchronous stop flag (`threading.Event`) becomes an oracle
  `stop : Nat → Bool` consulted at the orchestrator's check points
  (sequential mode consumes one observation per check) or, in parallel
  mode, one observation per task (`stop_obs : Nat → Bool`, indexed by
  the profile's submission index).
* The external `VMwareService` is an opaque capability; a `SourceData`
  value records, per profile, the outcome of `connect` and of each of
  the four extraction calls (`Except` models a raised exception).
* Python float percentages are modelled as exact rationals `ℚ`.
* The order in which `as_completed` yields parallel futures is a
  parameter `order : List Nat` (indices into the submitted profiles);
  an exception escaping a task boundary is an oracle
  `crash : Nat → Option String`.
-/

namespace VMwareInventory

/-- Modelled from the spec: `models/connection_profile.py` is not among
the available sources.  Section 4.1 of the spec gives the closed status
set `Pending, Testing, Scanning, OK, Done, Error, Skipped`, which is
exactly the set of `ConnectionStatus` members referenced by
`connection_manager.py`. -/
inductive ConnectionStatus where
  | pending
  | testing
  | scanning
  | okStatus
  | done
  | error
  | skipped
deriving DecidableEq, Inhabited

/-- Modelled from the spec: `models/connection_profile.py` is not among
the available sources.  Per §3 of the spec a profile carries a stable
unique identifier, a display name derived from alias/host, and mutable
scan state (status, last error message, found-counts).  Connection
attributes (host, port, credentials, TLS flag) are opaque to the
orchestration logic modelled here — the per-profile `SourceData`
environment captures their effect — so they are not carried.  The
uuid string identifier is abstracted to `Nat`. -/
structure ConnectionProfile where
  id : Nat
  display_name : String
  status : ConnectionStatus := .pending
  error_message : String := ""
  vms_found : Nat := 0
  hosts_found : Nat := 0
  datastores_found : Nat := 0
deriving DecidableEq, Inhabited

/-- Modelled from the spec: `models/connection_profile.py` is not among
the available sources.  Per §3 a `ScanConfig` has a parallel flag, a
maximum worker count, and four independent category toggles (the
timeout and export-partial flag are never read by the orchestrator
logic embedded here). -/
structure ScanConfig where
  parallel : Bool
  max_workers : Nat
  include_vms : Bool
  include_hosts : Bool
  include_datastores : Bool
  include_networks : Bool
deriving DecidableEq, Inhabited

/-- One extracted inventory record.  Its domain payload is opaque to the
orchestrator (abstracted to a `Nat`); the orchestrator only writes the
`source_name` tag (`_tag_inventory`). -/
structure Record where
  payload : Nat
  source_name : String := ""
deriving DecidableEq, Inhabited

/-- `SimpleInventory` from `services/connection_manager.py`: four record
lists, defaulting to empty. -/
structure SimpleInventory where
  virtual_machines : List Record := []
  hosts : List Record := []
  datastores : List Record := []
  networks : List Record := []
deriving DecidableEq, Inhabited

/-- `ScanProgress` from `services/connection_manager.py`.  `progress_pct`
(a Python float in 0–100) is modelled as an exact rational. -/
structure ScanProgress where
  profile_id : Nat
  profile_name : String
  status : ConnectionStatus
  message : String
  progress_pct : ℚ
  vms_found : Nat := 0
  hosts_found : Nat := 0
  error : String := ""
deriving DecidableEq, Inhabited

/-- `ConsolidatedResult` from `services/connection_manager.py`.  The
Python insertion-ordered dict `results_by_source` is an association
list; a profile id is written at most once per run. -/
structure ConsolidatedResult where
  results_by_source : List (Nat × SimpleInventory) := []
  completed_profiles : List ConnectionProfile := []
  failed_profiles : List ConnectionProfile := []
deriving DecidableEq, Inhabited

/-- `ConsolidatedResult.total_vms`: sum of VM-list lengths over all
stored per-source inventories (every stored value is a truthy
`SimpleInventory` with a `virtual_machines` attribute, so the Python
`if r and hasattr(...)` guard never filters anything). -/
def ConsolidatedResult.total_vms (r : ConsolidatedResult) : Nat :=
  (r.results_by_source.map (fun kv => kv.2.virtual_machines.length)).sum

/-- `ConsolidatedResult.total_hosts`. -/
def ConsolidatedResult.total_hosts (r : ConsolidatedResult) : Nat :=
  (r.results_by_source.map (fun kv => kv.2.hosts.length)).sum

/-- `ConsolidatedResult.total_datastores`. -/
def ConsolidatedResult.total_datastores (r : ConsolidatedResult) : Nat :=
  (r.results_by_source.map (fun kv => kv.2.datastores.length)).sum

/-- `ConsolidatedResult.has_data`: `bool(self.results_by_source)`. -/
def ConsolidatedResult.has_data (r : ConsolidatedResult) : Bool :=
  !r.results_by_source.isEmpty

/-- Outcome environment of one source: what `connect` and each
`extract_*` call of `VMwareService` would do for this profile.
`Except.error e` models the call raising an exception with text `e`. -/
structure SourceData where
  connect : Except String Unit
  extract_vms : Except String (List Record)
  extract_hosts : Except String (List Record)
  extract_datastores : Except String (List Record)
  extract_networks : Except String (List Record)

/-- Service operations, recorded as a call trace by `scan_single` so
that "which extraction operations were invoked" is observable. -/
inductive SvcOp where
  | connect
  | extractVms
  | extractHosts
  | extractDatastores
  | extractNetworks
  | disconnect
deriving DecidableEq, Inhabited

/-- `_tag_inventory` helper: write the source tag on one record. -/
def tag_record (source : String) (r : Record) : Record :=
  { r with source_name := source }

/-- `_tag_inventory`: inject `source_name := profile.display_name` into
every record of all four lists. -/
def tag_inventory (inv : SimpleInventory) (profile : ConnectionProfile) :
    SimpleInventory :=
  { virtual_machines := inv.virtual_machines.map (tag_record profile.display_name)
    hosts := inv.hosts.map (tag_record profile.display_name)
    datastores := inv.datastores.map (tag_record profile.display_name)
    networks := inv.networks.map (tag_record profile.display_name) }

/-- One guarded extraction (`svc.extract_X() if config.include_X else []`),
returning the value together with the trace of the invoked call. -/
def extract_step (enabled : Bool) (res : Except String (List Record))
    (op : SvcOp) : Except String (List Record) × List SvcOp :=
  if enabled then (res, [op]) else (Except.ok [], [])

/-- Result of `_scan_single` on one profile: the returned inventory
(`none` is the Python `None` sentinel), the profile as mutated by the
call, and the trace of service operations actually invoked. -/
structure SingleResult where
  inventory : Option SimpleInventory
  profile : ConnectionProfile
  calls : List SvcOp
deriving DecidableEq, Inhabited

/-- `_scan_single`: check the stop flag (skip path), else connect,
run the enabled extractions in order (VMs, hosts, datastores,
networks), disconnect, package, set `Done` plus counts, tag, and
return the inventory; any failure sets `Error` with the failure text
and returns the `none` sentinel instead of propagating. -/
def scan_single (src : SourceData) (stop_set : Bool)
    (profile : ConnectionProfile) (config : ScanConfig) : SingleResult :=
  if stop_set then
    { inventory := none
      profile := { profile with status := .skipped }
      calls := [] }
  else
    let p := { profile with status := .scanning }
    match src.connect with
    | .error e =>
        { inventory := none
          profile := { p with status := .error, error_message := e }
          calls := [SvcOp.connect] }
    | .ok _ =>
      match extract_step config.include_vms src.extract_vms .extractVms with
      | (.error e, t1) =>
          { inventory := none
            profile := { p with status := .error, error_message := e }
            calls := SvcOp.connect :: t1 }
      | (.ok vms, t1) =>
        match extract_step config.include_hosts src.extract_hosts .extractHosts with
        | (.error e, t2) =>
            { inventory := none
              profile := { p with status := .error, error_message := e }
              calls := SvcOp.connect :: (t1 ++ t2) }
        | (.ok hosts, t2) =>
          match extract_step config.include_datastores src.extract_datastores .extractDatastores with
          | (.error e, t3) =>
              { inventory := none
                profile := { p with status := .error, error_message := e }
                calls := SvcOp.connect :: (t1 ++ t2 ++ t3) }
          | (.ok datastores, t3) =>
            match extract_step config.include_networks src.extract_networks .extractNetworks with
            | (.error e, t4) =>
                { inventory := none
                  profile := { p with status := .error, error_message := e }
                  calls := SvcOp.connect :: (t1 ++ t2 ++ t3 ++ t4) }
            | (.ok networks, t4) =>
              let inv : SimpleInventory :=
                { virtual_machines := vms
                  hosts := hosts
                  datastores := datastores
                  networks := networks }
              let p2 := { p with
                status := .done
                vms_found := inv.virtual_machines.length
                hosts_found := inv.hosts.length
                datastores_found := inv.datastores.length }
              { inventory := some (tag_inventory inv p2)
                profile := p2
                calls := SvcOp.connect :: (t1 ++ t2 ++ t3 ++ t4) ++ [SvcOp.disconnect] }

/-- The local `emit` closure of `_run_scan`: wrap the profile's current
state and the given message/percentage into a `ScanProgress` event. -/
def emit (profile : ConnectionProfile) (msg : String) (pct : ℚ)
    (vms hosts : Nat) (error : String) : ScanProgress :=
  { profile_id := profile.id
    profile_name := profile.display_name
    status := profile.status
    message := msg
    progress_pct := pct
    vms_found := vms
    hosts_found := hosts
    error := error }

/-- Output of the sequential strategy: the consolidated result, the
emitted events in order, the dispatched profiles (post-scan state, in
dispatch order), and the suffix of profiles left untouched when the
loop-head cancellation check fired. -/
structure SeqOutput where
  result : ConsolidatedResult
  events : List ScanProgress
  processed : List ConnectionProfile
  remaining : List ConnectionProfile
deriving DecidableEq, Inhabited

/-- `_scan_sequential` loop: `t` is the stop-flag observation counter
(one observation at each loop head, one inside each `_scan_single`),
`idx` the running 0-based index into the full profile list, `total`
the full profile count.  On a loop-head stop the remaining profiles
are returned untouched; otherwise a start event is emitted at
`idx/total*100`, the profile is scanned, and an outcome event is
emitted at `(idx+1)/total*100`. -/
def scan_sequential_go (env : ConnectionProfile → SourceData)
    (config : ScanConfig) (stop : Nat → Bool) (total : Nat) :
    Nat → Nat → List ConnectionProfile → SeqOutput
  | _, _, [] => ⟨⟨[], [], []⟩, [], [], []⟩
  | t, idx, p :: rest =>
    if stop t then
      ⟨⟨[], [], []⟩, [], [], p :: rest⟩
    else
      let pct_start : ℚ := ((idx : ℚ) / (total : ℚ)) * 100
      let pct_end : ℚ := (((idx : ℚ) + 1) / (total : ℚ)) * 100
      let ev_start := emit p ("Conectando a " ++ p.display_name ++ "...") pct_start 0 0 ""
      let sr := scan_single (env p) (stop (t + 1)) p config
      let o := scan_sequential_go env config stop total (t + 2) (idx + 1) rest
      match sr.inventory with
      | some inv =>
        let ev_end := emit sr.profile
          ("✅ " ++ sr.profile.display_name ++ " — " ++
            toString sr.profile.vms_found ++ " VMs, " ++
            toString sr.profile.hosts_found ++ " Hosts")
          pct_end sr.profile.vms_found sr.profile.hosts_found ""
        ⟨⟨(p.id, inv) :: o.result.results_by_source,
          sr.profile :: o.result.completed_profiles,
          o.result.failed_profiles⟩,
          ev_start :: ev_end :: o.events,
          sr.profile :: o.processed,
          o.remaining⟩
      | none =>
        let ev_end := emit sr.profile
          ("❌ " ++ sr.profile.display_name ++ " — " ++ sr.profile.error_message)
          pct_end 0 0 sr.profile.error_message
        ⟨⟨o.result.results_by_source,
          o.result.completed_profiles,
          sr.profile :: o.result.failed_profiles⟩,
          ev_start :: ev_end :: o.events,
          sr.profile :: o.processed,
          o.remaining⟩

/-- `_scan_sequential`: run the loop from index 0 with a fresh
observation counter. -/
def scan_sequential (env : ConnectionProfile → SourceData)
    (config : ScanConfig) (stop : Nat → Bool) (total : Nat)
    (profiles : List ConnectionProfile) : SeqOutput :=
  scan_sequential_go env config stop total 0 0 profiles

/-- The percentage sequence a full (uncancelled) sequential run over
`n` profiles starting at index `idx` emits: `idx/total*100`,
`(idx+1)/total*100`, then the sequence for the rest. -/
def seq_pcts (total : Nat) : Nat → Nat → List ℚ
  | _, 0 => []
  | idx, n + 1 =>
    ((idx : ℚ) / (total : ℚ)) * 100 ::
    (((idx : ℚ) + 1) / (total : ℚ)) * 100 ::
    seq_pcts total (idx + 1) n

/-- Output of the parallel join loop: the consolidated result, the
outcome events in completion order, and the joined profiles
(post-task state, in completion order). -/
structure JoinOutput where
  result : ConsolidatedResult
  events : List ScanProgress
  joined : List ConnectionProfile
deriving DecidableEq, Inhabited

/-- The `as_completed` join loop of `_scan_parallel`.  `order` lists the
indices of the submitted profiles in completion order; `completed` is
the shared completion counter.  For each joined task: either its
future raised (`crash i = some e`) — caught and demoted to profile
status `Error` — or it returned `scan_single`'s result (the task's
stop-flag observation is `stop_obs i`).  A `none` inventory appends
the profile to the failed list, otherwise the inventory is stored
under the profile's id and the profile appended to the completed
list; an outcome event is emitted at `completed/total*100`. -/
def scan_parallel_join (env : ConnectionProfile → SourceData)
    (config : ScanConfig) (stop_obs : Nat → Bool)
    (crash : Nat → Option String) (profiles : List ConnectionProfile)
    (total : Nat) : Nat → List Nat → JoinOutput
  | _, [] => ⟨⟨[], [], []⟩, [], []⟩
  | completed, i :: rest =>
    let p := profiles.getD i default
    let cpl := completed + 1
    let pct : ℚ := ((cpl : ℚ) / (total : ℚ)) * 100
    let joined : Option SimpleInventory × ConnectionProfile :=
      match crash i with
      | some e => (none, { p with status := .error, error_message := e })
      | none =>
        let sr := scan_single (env p) (stop_obs i) p config
        (sr.inventory, sr.profile)
    let o := scan_parallel_join env config stop_obs crash profiles total cpl rest
    match joined with
    | (some inv, p') =>
      ⟨⟨(p.id, inv) :: o.result.results_by_source,
        p' :: o.result.completed_profiles,
        o.result.failed_profiles⟩,
        emit p' ("✅ " ++ p'.display_name ++ " — " ++ toString p'.vms_found ++ " VMs")
          pct p'.vms_found p'.hosts_found "" :: o.events,
        p' :: o.joined⟩
    | (none, p') =>
      ⟨⟨o.result.results_by_source,
        o.result.completed_profiles,
        p' :: o.result.failed_profiles⟩,
        emit p' ("❌ " ++ p'.display_name ++ " — " ++ p'.error_message)
          pct 0 0 p'.error_message :: o.events,
        p' :: o.joined⟩

/-- Output of the parallel strategy, including the worker-pool size the
`ThreadPoolExecutor` is created with. -/
structure ParOutput where
  result : ConsolidatedResult
  events : List ScanProgress
  joined : List ConnectionProfile
  pool_size : Nat
deriving DecidableEq, Inhabited

/-- `_scan_parallel`: create the pool with `min(config.max_workers,
total)` workers, emit one "Encolando" event at 0% per profile in
submission order, then run the join loop. -/
def scan_parallel (env : ConnectionProfile → SourceData)
    (config : ScanConfig) (stop_obs : Nat → Bool)
    (crash : Nat → Option String) (profiles : List ConnectionProfile)
    (order : List Nat) (total : Nat) : ParOutput :=
  let enq := profiles.map
    (fun p => emit p ("Encolando " ++ p.display_name ++ "...") 0 0 0 "")
  let o := scan_parallel_join env config stop_obs crash profiles total 0 order
  ⟨o.result, enq ++ o.events, o.joined, min config.max_workers total⟩

/-- A callback invocation made by the scan thread: one `on_progress`
delivery or one `on_complete` delivery. -/
inductive CallbackEvent where
  | progress (e : ScanProgress)
  | complete (r : ConsolidatedResult)
deriving DecidableEq, Inhabited

/-- Whether a callback invocation is the completion callback. -/
def CallbackEvent.is_complete : CallbackEvent → Bool
  | .complete _ => true
  | .progress _ => false

/-- Full observable outcome of `_run_scan`: the consolidated result,
the callback invocations in order, which strategy ran, the pool size
(parallel only), the dispatched profiles (post-scan state), and the
sequential-mode suffix never dispatched because of cancellation. -/
structure RunOutput where
  result : ConsolidatedResult
  callbacks : List CallbackEvent
  used_parallel : Bool
  pool_size : Option Nat
  dispatched : List ConnectionProfile
  seq_remaining : List ConnectionProfile
deriving DecidableEq, Inhabited

/-- `_run_scan`: build an empty result, dispatch to the parallel
strategy iff `config.parallel and total > 1` (else sequential), then
invoke `on_complete` with the result — the callback list is the
progress events followed by exactly one completion invocation. -/
def run_scan (env : ConnectionProfile → SourceData) (config : ScanConfig)
    (stop : Nat → Bool) (stop_obs : Nat → Bool)
    (crash : Nat → Option String) (order : List Nat)
    (profiles : List ConnectionProfile) : RunOutput :=
  let total := profiles.length
  if config.parallel = true ∧ 1 < total then
    let po := scan_parallel env config stop_obs crash profiles order total
    ⟨po.result, po.events.map CallbackEvent.progress ++ [.complete po.result],
      true, some po.pool_size, po.joined, []⟩
  else
    let so := scan_sequential env config stop total profiles
    ⟨so.result, so.events.map CallbackEvent.progress ++ [.complete so.result],
      false, none, so.processed, so.remaining⟩

/-- The profile registry of `ConnectionManager` together with the id
supply.  Modelled from the spec: identifier assignment lives in the
missing `models/connection_profile.py`; per §3 an identifier is
"assigned at creation, immutable", so creation is modelled as drawing
from a monotone counter (abstracting uuid generation, whose outputs
are distinct). -/
structure RegistryState where
  profiles : List ConnectionProfile
  next_id : Nat
deriving DecidableEq, Inhabited

/-- One registry operation: `add_profile` with a freshly created
profile, `remove_profile(id)`, or `clear_profiles()`. -/
inductive RegistryOp where
  | add (display_name : String)
  | remove (id : Nat)
  | clear
deriving DecidableEq, Inhabited

/-- Apply one registry operation: `add_profile` appends
(`self.profiles.append(profile)`), `remove_profile` keeps the profiles
whose id differs (`[p for p in self.profiles if p.id != profile_id]`),
`clear_profiles` empties the list. -/
def registry_apply (s : RegistryState) : RegistryOp → RegistryState
  | .add name =>
      { profiles := s.profiles ++ [{ id := s.next_id, display_name := name }]
        next_id := s.next_id + 1 }
  | .remove pid =>
      { s with profiles := s.profiles.filter (fun p => !(decide (p.id = pid))) }
  | .clear => { s with profiles := [] }

/-- Run a sequence of registry operations from the manager's initial
empty registry. -/
def registry_run (ops : List RegistryOp) : RegistryState :=
  ops.foldl registry_apply ⟨[], 0⟩

/-- The registry invariant: ids are pairwise distinct and below the id
supply counter. -/
def registry_inv (s : RegistryState) : Prop :=
  (s.profiles.map (fun p => p.id)).Nodup ∧
    ∀ p ∈ s.profiles, p.id < s.next_id

/-- The standard base64 alphabet used by Python's `base64.b64encode`. -/
def b64_alphabet : List Char :=
  "ABCDEFGHIJKLMNOPQRSTUVWXYZabcdefghijklmnopqrstuvwxyz0123456789+/".toList

/-- Sextet value → alphabet character. -/
def enc6 (n : Nat) : Char := b64_alphabet.getD n '='

/-- Alphabet character → sextet value (inverse table lookup; `none` for
a character outside the alphabet, in particular for `'='`). -/
def dec6 (c : Char) : Option Nat :=
  let i := b64_alphabet.indexOf c
  if i < 64 then some i else none

/-- RFC 4648 base64 of a byte list (bytes as naturals below 256), as
produced by Python's `base64.b64encode`: 3-byte groups become 4
alphabet characters; a trailing 1- or 2-byte group is padded with
`'='`. -/
def b64encode : List Nat → List Char
  | [] => []
  | [a] => [enc6 (a / 4), enc6 (a % 4 * 16), '=', '=']
  | [a, b] => [enc6 (a / 4), enc6 (a % 4 * 16 + b / 16), enc6 (b % 16 * 4), '=']
  | a :: b :: c :: rest =>
    enc6 (a / 4) :: enc6 (a % 4 * 16 + b / 16) :: enc6 (b % 16 * 4 + c / 64) ::
      enc6 (c % 64) :: b64encode rest

/-- Base64 decoding, as `base64.b64decode` behaves on well-formed
input: 4-character groups, with `'='` padding allowed only in the
final group; excess bits in a padded final group are discarded without
complaint (Python's default non-strict mode). -/
def b64decode : List Char → Option (List Nat)
  | [] => some []
  | c1 :: c2 :: c3 :: c4 :: rest =>
    match dec6 c1, dec6 c2 with
    | some s1, some s2 =>
      if c3 = '=' then
        if c4 = '=' ∧ rest = [] then some [s1 * 4 + s2 / 16] else none
      else
        match dec6 c3 with
        | some s3 =>
          if c4 = '=' then
            if rest = [] then some [s1 * 4 + s2 / 16, s2 % 16 * 16 + s3 / 4]
            else none
          else
            match dec6 c4 with
            | some s4 =>
              match b64decode rest with
              | some ds =>
                some ((s1 * 4 + s2 / 16) :: (s2 % 16 * 16 + s3 / 4) ::
                  (s3 % 4 * 64 + s4) :: ds)
              | none => none
            | none => none
        | none => none
    | _, _ => none
  | _ => none

/-- `utils/credentials.py::encrypt_password`, fallback path
(`CRYPTO_AVAILABLE = False`): `base64.b64encode(password.encode()).decode()`.
The password is represented by its UTF-8 byte sequence (`.encode()` /
`.decode()` are the identity on that byte level); the crypto path
delegates to the external Fernet library and is outside this model. -/
def encrypt_password (password : List Nat) : List Char :=
  b64encode password

/-- `utils/credentials.py::decrypt_password`, fallback path:
`base64.b64decode(encrypted.encode()).decode()`; `none` models the
exception raised on undecodable input. -/
def decrypt_password (encrypted : List Char) : Option (List Nat) :=
  b64decode encrypted

/-- Concrete witness material: a profile, an all-on configuration, the
Scenario D configuration (VMs off, hosts on), a healthy source with 10
VMs and 2 hosts, and a source whose connect fails. -/
def wit_profile : ConnectionProfile := { id := 7, display_name := "lab" }

def wit_records (n : Nat) : List Record :=
  (List.range n).map (fun k => { payload := k })

def wit_src_ok : SourceData :=
  { connect := .ok ()
    extract_vms := .ok (wit_records 10)
    extract_hosts := .ok (wit_records 2)
    extract_datastores := .ok []
    extract_networks := .ok [] }

def wit_src_fail : SourceData :=
  { connect := .error "invalid credentials"
    extract_vms := .ok []
    extract_hosts := .ok []
    extract_datastores := .ok []
    extract_networks := .ok [] }

def wit_cfg_all : ScanConfig :=
  { parallel := false, max_workers := 4, include_vms := true
    include_hosts := true, include_datastores := true, include_networks := true }

def wit_cfg_d : ScanConfig :=
  { parallel := false, max_workers := 4, include_vms := false
    include_hosts := true, include_datastores := false, include_networks := false }

/-- Two registered profiles and a parallel all-on configuration, used
for concrete runs. -/
def cx_profiles : List ConnectionProfile :=
  [{ id := 1, display_name := "alpha" }, { id := 2, display_name := "beta" }]

def cx_cfg_par : ScanConfig :=
  { parallel := true, max_workers := 4, include_vms := true
    include_hosts := true, include_datastores := true, include_networks := true }

/-- Scenario A material: three profiles succeeding with 5, 3 and 8 VMs
respectively. -/
def sa_profiles : List ConnectionProfile :=
  [{ id := 1, display_name := "a" }, { id := 2, display_name := "b" },
   { id := 3, display_name := "c" }]

def sa_env : ConnectionProfile → SourceData := fun p =>
  { connect := .ok ()
    extract_vms := .ok (wit_records (if p.id = 1 then 5 else if p.id = 2 then 3 else 8))
    extract_hosts := .ok []
    extract_datastores := .ok []
    extract_networks := .ok [] }

/-- A `scan_single` call never changes the profile's identifier. -/
theorem scan_single_id (src : SourceData) (stop_set : Bool)
    (profile : ConnectionProfile) (config : ScanConfig) :
    (scan_single src stop_set profile config).profile.id = profile.id := by
  unfold scan_single
  split
  · rfl
  · split
    · rfl
    · rcases h1 : extract_step config.include_vms src.extract_vms .extractVms with ⟨r1, t1⟩
      cases r1 <;> simp only [h1] <;> try rfl
      rcases h2 : extract_step config.include_hosts src.extract_hosts .extractHosts with ⟨r2, t2⟩
      cases r2 <;> simp only [h2] <;> try rfl
      rcases h3 : extract_step config.include_datastores src.extract_datastores .extractDatastores with ⟨r3, t3⟩
      cases r3 <;> simp only [h3] <;> try rfl
      rcases h4 : extract_step config.include_networks src.extract_networks .extractNetworks with ⟨r4, t4⟩
      cases r4 <;> simp only [h4] <;> rfl

/-- The `none` sentinel is returned exactly when the final status is
not `Done`: success and failure are distinguished solely by the
sentinel. -/
theorem scan_single_inventory_status (src : SourceData) (stop_set : Bool)
    (profile : ConnectionProfile) (config : ScanConfig) :
    (scan_single src stop_set profile config).inventory.isSome =
      decide ((scan_single src stop_set profile config).profile.status = .done) := by
  unfold scan_single
  split
  · rfl
  · split
    · rfl
    · rcases h1 : extract_step config.include_vms src.extract_vms .extractVms with ⟨r1, t1⟩
      cases r1 <;> simp only [h1] <;> try rfl
      rcases h2 : extract_step config.include_hosts src.extract_hosts .extractHosts with ⟨r2, t2⟩
      cases r2 <;> simp only [h2] <;> try rfl
      rcases h3 : extract_step config.include_datastores src.extract_datastores .extractDatastores with ⟨r3, t3⟩
      cases r3 <;> simp only [h3] <;> try rfl
      rcases h4 : extract_step config.include_networks src.extract_networks .extractNetworks with ⟨r4, t4⟩
      cases r4 <;> simp only [h4] <;> rfl <;> rfl

theorem seq_pcts_length (total : Nat) :
    ∀ n idx, (seq_pcts total idx n).length = 2 * n := by
  intro n
  induction n with
  | zero => intro idx; rfl
  | succ m ih =>
    intro idx
    simp only [seq_pcts, List.length_cons, ih]
    omega

/-- With the stop flag never set, the emitted percentages of the
sequential loop are exactly `seq_pcts`. -/
theorem scan_sequential_go_pcts (env : ConnectionProfile → SourceData)
    (config : ScanConfig) (total : Nat) :
    ∀ (ps : List ConnectionProfile) (t idx : Nat),
      ((scan_sequential_go env config (fun _ => false) total t idx ps).events.map
        (fun e => e.progress_pct)) = seq_pcts total idx ps.length := by
  intro ps
  induction ps with
  | nil => intro t idx; rfl
  | cons p rest ih =>
    intro t idx
    simp only [scan_sequential_go, if_neg (by simp : ¬(false = true))]
    cases h : (scan_single (env p) false p config).inventory <;>
      simp only [h, List.map_cons, List.length_cons, seq_pcts, ih, emit]

/-- Closed form of the percentage stream: position `j` (for `j < 2n`)
holds `(idx + (j+1)/2) / total * 100`, covering start events (even
`j`) and completion events (odd `j`) at once. -/
theorem seq_pcts_getD (total : Nat) :
    ∀ n idx j, j < 2 * n →
      (seq_pcts total idx n).getD j 0 =
        (((idx + (j + 1) / 2 : Nat) : ℚ) / (total : ℚ)) * 100 := by
  intro n
  induction n with
  | zero => intro idx j hj; omega
  | succ m ih =>
    intro idx j hj
    match j with
    | 0 =>
      simp only [seq_pcts, List.getD_cons_zero]
      norm_num
    | 1 =>
      simp only [seq_pcts, List.getD_cons_succ, List.getD_cons_zero]
      push_cast
      ring
    | j + 2 =>
      simp only [seq_pcts, List.getD_cons_succ]
      rw [ih (idx + 1) j (by omega)]
      have h : idx + 1 + (j + 1) / 2 = idx + (j + 2 + 1) / 2 := by omega
      rw [h]

/-- The percentage stream is non-decreasing. -/
theorem seq_pcts_chain (total : Nat) (ht : 0 < total) :
    ∀ n idx, List.Chain' (· ≤ ·) (seq_pcts total idx n) := by
  have hT : (0 : ℚ) < (total : ℚ) := by exact_mod_cast ht
  intro n
  induction n with
  | zero => intro idx; exact List.chain'_nil
  | succ m ih =>
    intro idx
    simp only [seq_pcts]
    rw [List.chain'_cons]
    constructor
    · have : (idx : ℚ) / (total : ℚ) ≤ ((idx : ℚ) + 1) / (total : ℚ) :=
        (div_le_div_right hT).mpr (by linarith)
      exact mul_le_mul_of_nonneg_right this (by norm_num)
    · match m with
      | 0 => exact List.chain'_singleton _
      | m + 1 =>
        simp only [seq_pcts]
        rw [List.chain'_cons]
        refine ⟨le_of_eq ?_, ?_⟩
        · push_cast
          ring
        · have := ih (idx + 1)
          simpa [seq_pcts] using this

theorem filter_length_partition {α : Type} (p : α → Bool) :
    ∀ l : List α, (l.filter p).length + (l.filter (fun a => !(p a))).length = l.length := by
  intro l
  induction l with
  | nil => rfl
  | cons a l ih =>
    by_cases h : p a = true <;>
      simp [List.filter_cons, h, Nat.succ_eq_add_one, ← ih] <;> omega

/-- Sequential loop bookkeeping: the success list is exactly the
dispatched profiles that ended `Done`, the failure list exactly the
dispatched profiles that did not, the stored source keys are the ids
of the success list in order, and dispatched plus untouched profiles
account for the whole input. -/
theorem scan_sequential_go_partition (env : ConnectionProfile → SourceData)
    (config : ScanConfig) (stop : Nat → Bool) (total : Nat) :
    ∀ (ps : List ConnectionProfile) (t idx : Nat),
      (scan_sequential_go env config stop total t idx ps).result.completed_profiles =
        (scan_sequential_go env config stop total t idx ps).processed.filter
          (fun q => decide (q.status = .done)) ∧
      (scan_sequential_go env config stop total t idx ps).result.failed_profiles =
        (scan_sequential_go env config stop total t idx ps).processed.filter
          (fun q => !(decide (q.status = .done))) ∧
      (scan_sequential_go env config stop total t idx ps).result.results_by_source.map Prod.fst =
        (scan_sequential_go env config stop total t idx ps).result.completed_profiles.map
          (fun q => q.id) ∧
      (scan_sequential_go env config stop total t idx ps).processed.length +
        (scan_sequential_go env config stop total t idx ps).remaining.length = ps.length := by
  intro ps
  induction ps with
  | nil => intro t idx; exact ⟨rfl, rfl, rfl, rfl⟩
  | cons p rest ih =>
    intro t idx
    by_cases hs : stop t
    · simp only [scan_sequential_go, if_pos hs]
      exact ⟨rfl, rfl, rfl, by simp⟩
    · simp only [scan_sequential_go, if_neg hs]
      have hinv := scan_single_inventory_status (env p) (stop (t + 1)) p config
      have hid := scan_single_id (env p) (stop (t + 1)) p config
      obtain ⟨ih1, ih2, ih3, ih4⟩ := ih (t + 2) (idx + 1)
      cases h : (scan_single (env p) (stop (t + 1)) p config).inventory with
      | some inv =>
        rw [h] at hinv
        have hdone : (scan_single (env p) (stop (t + 1)) p config).profile.status = .done := by
          simpa using hinv.symm
        refine ⟨?_, ?_, ?_, ?_⟩
        · simp [List.filter_cons, hdone, ih1]
        · simp [List.filter_cons, hdone, ih2]
        · simp only [List.map_cons, ih3, hid]
        · simp only [List.length_cons]
          omega
      | none =>
        rw [h] at hinv
        have hnotdone : ¬(scan_single (env p) (stop (t + 1)) p config).profile.status = .done := by
          simpa using hinv.symm
        refine ⟨?_, ?_, ?_, ?_⟩
        · simp [List.filter_cons, hnotdone, ih1]
        · simp [List.filter_cons, hnotdone, ih2]
        · exact ih3
        · simp only [List.length_cons]
          omega

/-- Parallel join bookkeeping: same partition facts as the sequential
loop, and every joined task lands in exactly one of the two lists —
`joined` has one entry per completed future. -/
theorem scan_parallel_join_partition (env : ConnectionProfile → SourceData)
    (config : ScanConfig) (stop_obs : Nat → Bool) (crash : Nat → Option String)
    (profiles : List ConnectionProfile) (total : Nat) :
    ∀ (order : List Nat) (completed : Nat),
      (scan_parallel_join env config stop_obs crash profiles total completed order).result.completed_profiles =
        (scan_parallel_join env config stop_obs crash profiles total completed order).joined.filter
          (fun q => decide (q.status = .done)) ∧
      (scan_parallel_join env config stop_obs crash profiles total completed order).result.failed_profiles =
        (scan_parallel_join env config stop_obs crash profiles total completed order).joined.filter
          (fun q => !(decide (q.status = .done))) ∧
      (scan_parallel_join env config stop_obs crash profiles total completed order).result.results_by_source.map Prod.fst =
        (scan_parallel_join env config stop_obs crash profiles total completed order).result.completed_profiles.map
          (fun q => q.id) ∧
      (scan_parallel_join env config stop_obs crash profiles total completed order).joined.length =
        order.length := by
  intro order
  induction order with
  | nil => intro completed; exact ⟨rfl, rfl, rfl, rfl⟩
  | cons i rest ih =>
    intro completed
    obtain ⟨ih1, ih2, ih3, ih4⟩ := ih (completed + 1)
    cases hc : crash i with
    | some e =>
      simp only [scan_parallel_join, hc]
      refine ⟨?_, ?_, ?_, ?_⟩
      · simpa [List.filter_cons] using ih1
      · simpa [List.filter_cons] using ih2
      · exact ih3
      · simpa using ih4
    | none =>
      simp only [scan_parallel_join, hc]
      set q := profiles.getD i default with hq
      have hinv := scan_single_inventory_status (env q) (stop_obs i) q config
      have hid := scan_single_id (env q) (stop_obs i) q config
      cases h : (scan_single (env q) (stop_obs i) q config).inventory with
      | some inv =>
        rw [h] at hinv
        have hdone : (scan_single (env q) (stop_obs i) q config).profile.status = .done := by
          simpa using hinv.symm
        refine ⟨?_, ?_, ?_, ?_⟩
        · simp [List.filter_cons, hdone, ih1]
        · simp [List.filter_cons, hdone, ih2]
        · simp only [List.map_cons, ih3, hid]
        · simpa using ih4
      | none =>
        rw [h] at hinv
        have hnotdone : ¬(scan_single (env q) (stop_obs i) q config).profile.status = .done := by
          simpa using hinv.symm
        refine ⟨?_, ?_, ?_, ?_⟩
        · simp [List.filter_cons, hnotdone, ih1]
        · simp [List.filter_cons, hnotdone, ih2]
        · exact ih3
        · simpa using ih4

theorem registry_apply_inv (s : RegistryState) (op : RegistryOp)
    (h : registry_inv s) : registry_inv (registry_apply s op) := by
  obtain ⟨hnd, hlt⟩ := h
  cases op with
  | add name =>
    constructor
    · simp only [registry_apply, List.map_append, List.map_cons, List.map_nil]
      rw [List.nodup_append]
      refine ⟨hnd, List.nodup_singleton _, ?_⟩
      intro a ha hb
      simp only [List.mem_singleton] at hb
      subst hb
      obtain ⟨p, hp, hpa⟩ := List.mem_map.mp ha
      have := hlt p hp
      omega
    · intro p hp
      simp only [registry_apply, List.mem_append, List.mem_singleton] at hp
      rcases hp with hp | hp
      · have := hlt p hp
        simp only [registry_apply]
        omega
      · subst hp
        simp [registry_apply]
  | remove pid =>
    constructor
    · exact List.Nodup.sublist (List.Sublist.map _ (List.filter_sublist _)) hnd
    · intro p hp
      simp only [registry_apply, List.mem_filter] at hp
      exact hlt p hp.1
  | clear =>
    exact ⟨List.nodup_nil, by simp [registry_apply]⟩

theorem registry_foldl_inv (ops : List RegistryOp) :
    ∀ s : RegistryState, registry_inv s →
      registry_inv (ops.foldl registry_apply s) := by
  induction ops with
  | nil => intro s hs; exact hs
  | cons op rest ih =>
    intro s hs
    exact ih (registry_apply s op) (registry_apply_inv s op hs)

theorem registry_run_inv (ops : List RegistryOp) :
    registry_inv (registry_run ops) :=
  registry_foldl_inv ops ⟨[], 0⟩ ⟨List.nodup_nil, by simp⟩

theorem dec6_enc6 : ∀ n < 64, dec6 (enc6 n) = some n := by decide

theorem enc6_ne_pad : ∀ n < 64, enc6 n ≠ '=' := by decide

theorem b64_round_trip :
    ∀ bs : List Nat, (∀ b ∈ bs, b < 256) →
      b64decode (b64encode bs) = some bs
  | [], _ => by simp [b64encode, b64decode]
  | [a], h => by
    have ha : a < 256 := h a (by simp)
    have h1 : dec6 (enc6 (a / 4)) = some (a / 4) := dec6_enc6 _ (by omega)
    have h2 : dec6 (enc6 (a % 4 * 16)) = some (a % 4 * 16) := dec6_enc6 _ (by omega)
    simp only [b64encode, b64decode, h1, h2]
    simp
    omega
  | [a, b], h => by
    have ha : a < 256 := h a (by simp)
    have hb : b < 256 := h b (by simp)
    have h1 : dec6 (enc6 (a / 4)) = some (a / 4) := dec6_enc6 _ (by omega)
    have h2 : dec6 (enc6 (a % 4 * 16 + b / 16)) = some (a % 4 * 16 + b / 16) :=
      dec6_enc6 _ (by omega)
    have h3 : dec6 (enc6 (b % 16 * 4)) = some (b % 16 * 4) := dec6_enc6 _ (by omega)
    have hne : enc6 (b % 16 * 4) ≠ '=' := enc6_ne_pad _ (by omega)
    simp only [b64encode, b64decode, h1, h2, h3, if_neg hne]
    simp
    constructor <;> omega
  | a :: b :: c :: rest, h => by
    have ha : a < 256 := h a (by simp)
    have hb : b < 256 := h b (by simp)
    have hc : c < 256 := h c (by simp)
    have ih := b64_round_trip rest (fun x hx => h x (by simp [hx]))
    have h1 : dec6 (enc6 (a / 4)) = some (a / 4) := dec6_enc6 _ (by omega)
    have h2 : dec6 (enc6 (a % 4 * 16 + b / 16)) = some (a % 4 * 16 + b / 16) :=
      dec6_enc6 _ (by omega)
    have h3 : dec6 (enc6 (b % 16 * 4 + c / 64)) = some (b % 16 * 4 + c / 64) :=
      dec6_enc6 _ (by omega)
    have h4 : dec6 (enc6 (c % 64)) = some (c % 64) := dec6_enc6 _ (by omega)
    have hne3 : enc6 (b % 16 * 4 + c / 64) ≠ '=' := enc6_ne_pad _ (by omega)
    have hne4 : enc6 (c % 64) ≠ '=' := enc6_ne_pad _ (by omega)
    simp only [b64encode, b64decode, h1, h2, h3, h4, if_neg hne3, if_neg hne4, ih]
    simp
    refine ⟨by omega, by omega, by omega⟩

theorem extract_step_ok_inv {en : Bool} {res : Except String (List Record)}
    {op : SvcOp} {v : List Record} {t : List SvcOp}
    (h : extract_step en res op = (Except.ok v, t)) :
    t = (if en then [op] else []) ∧ (en = false → v = []) := by
  unfold extract_step at h
  split at h <;> simp_all

theorem extract_step_error_inv {en : Bool} {res : Except String (List Record)}
    {op : SvcOp} {e : String} {t : List SvcOp}
    (h : extract_step en res op = (Except.error e, t)) :
    en = true ∧ res = Except.error e := by
  unfold extract_step at h
  split at h <;> simp_all

/-- Shape of a successful `scan_single`: the inventory is the tagged
packaging of the four extracted lists, the profile ends `Done` with
counts set from the list lengths, the call trace is connect, the
enabled extractions in order, disconnect, and a disabled category's
list is empty. -/
theorem scan_single_success_shape (src : SourceData) (stop_set : Bool)
    (p : ConnectionProfile) (config : ScanConfig) (inv : SimpleInventory)
    (h : (scan_single src stop_set p config).inventory = some inv) :
    ∃ vms hosts datastores networks : List Record,
      inv = tag_inventory
        { virtual_machines := vms
          hosts := hosts
          datastores := datastores
          networks := networks }
        { p with
          status := .done
          vms_found := vms.length
          hosts_found := hosts.length
          datastores_found := datastores.length } ∧
      (scan_single src stop_set p config).profile =
        { p with
          status := .done
          vms_found := vms.length
          hosts_found := hosts.length
          datastores_found := datastores.length } ∧
      (scan_single src stop_set p config).calls =
        SvcOp.connect ::
          ((if config.include_vms then [SvcOp.extractVms] else []) ++
           (if config.include_hosts then [SvcOp.extractHosts] else []) ++
           (if config.include_datastores then [SvcOp.extractDatastores] else []) ++
           (if config.include_networks then [SvcOp.extractNetworks] else [])) ++
          [SvcOp.disconnect] ∧
      (config.include_vms = false → vms = []) ∧
      (config.include_hosts = false → hosts = []) ∧
      (config.include_datastores = false → datastores = []) ∧
      (config.include_networks = false → networks = []) := by
  unfold scan_single at h ⊢
  by_cases hs : stop_set = true
  · rw [if_pos hs] at h
    simp at h
  · rw [if_neg hs] at h ⊢
    cases hcon : src.connect with
    | error e => simp only [hcon] at h; simp at h
    | ok u =>
      simp only [hcon] at h ⊢
      rcases h1 : extract_step config.include_vms src.extract_vms .extractVms with ⟨r1, t1⟩
      simp only [h1] at h ⊢
      cases r1 with
      | error e => simp at h
      | ok vms =>
        rcases h2 : extract_step config.include_hosts src.extract_hosts .extractHosts with ⟨r2, t2⟩
        simp only [h2] at h ⊢
        cases r2 with
        | error e => simp at h
        | ok hosts =>
          rcases h3 : extract_step config.include_datastores src.extract_datastores .extractDatastores with ⟨r3, t3⟩
          simp only [h3] at h ⊢
          cases r3 with
          | error e => simp at h
          | ok datastores =>
            rcases h4 : extract_step config.include_networks src.extract_networks .extractNetworks with ⟨r4, t4⟩
            simp only [h4] at h ⊢
            cases r4 with
            | error e => simp at h
            | ok networks =>
              obtain ⟨ht1, hv1⟩ := extract_step_ok_inv h1
              obtain ⟨ht2, hv2⟩ := extract_step_ok_inv h2
              obtain ⟨ht3, hv3⟩ := extract_step_ok_inv h3
              obtain ⟨ht4, hv4⟩ := extract_step_ok_inv h4
              refine ⟨vms, hosts, datastores, networks, ?_, rfl, ?_, hv1, hv2, hv3, hv4⟩
              · simpa using h.symm
              · rw [ht1, ht2, ht3, ht4]

/-- C4: a single-source scan that fails at connect or at any enabled
extraction sets the profile's status to `Error`, records the failure's
description as the error message, and returns the `none` sentinel
rather than raising (the embedding is total, so no failure
propagates); in parallel mode a failure escaping the task boundary
(`crash`) is caught at the join point, demoted to the same `Error`
status with the failure text, appended to the failure list, and the
sibling tasks are still all joined. -/
theorem scan_failure_error_state :
    (∀ (src : SourceData) (p : ConnectionProfile) (config : ScanConfig),
      (scan_single src false p config).inventory = none →
        (scan_single src false p config).profile.status = .error ∧
        (src.connect = Except.error (scan_single src false p config).profile.error_message ∨
         (config.include_vms = true ∧
           src.extract_vms = Except.error (scan_single src false p config).profile.error_message) ∨
         (config.include_hosts = true ∧
           src.extract_hosts = Except.error (scan_single src false p config).profile.error_message) ∨
         (config.include_datastores = true ∧
           src.extract_datastores = Except.error (scan_single src false p config).profile.error_message) ∨
         (config.include_networks = true ∧
           src.extract_networks = Except.error (scan_single src false p config).profile.error_message))) ∧
    (∀ (env : ConnectionProfile → SourceData) (config : ScanConfig)
        (stop_obs : Nat → Bool) (crash : Nat → Option String)
        (profiles : List ConnectionProfile) (total completed i : Nat)
        (rest : List Nat) (e : String),
      crash i = some e →
        (scan_parallel_join env config stop_obs crash profiles total completed (i :: rest)).result.failed_profiles =
          { profiles.getD i default with status := .error, error_message := e } ::
            (scan_parallel_join env config stop_obs crash profiles total (completed + 1) rest).result.failed_profiles ∧
        (scan_parallel_join env config stop_obs crash profiles total completed (i :: rest)).result.completed_profiles =
          (scan_parallel_join env config stop_obs crash profiles total (completed + 1) rest).result.completed_profiles ∧
        (scan_parallel_join env config stop_obs crash profiles total completed (i :: rest)).joined.length =
          rest.length + 1) := by
  constructor
  · intro src p config hnone
    unfold scan_single at hnone ⊢
    rw [if_neg (by simp : ¬(false = true))] at hnone ⊢
    cases hcon : src.connect with
    | error e =>
      simp [hcon]
    | ok u =>
      simp only [hcon] at hnone ⊢
      rcases h1 : extract_step config.include_vms src.extract_vms .extractVms with ⟨r1, t1⟩
      simp only [h1] at hnone ⊢
      cases r1 with
      | error e =>
        obtain ⟨hen, hres⟩ := extract_step_error_inv h1
        exact ⟨rfl, Or.inr (Or.inl ⟨hen, hres⟩)⟩
      | ok vms =>
        rcases h2 : extract_step config.include_hosts src.extract_hosts .extractHosts with ⟨r2, t2⟩
        simp only [h2] at hnone ⊢
        cases r2 with
        | error e =>
          obtain ⟨hen, hres⟩ := extract_step_error_inv h2
          exact ⟨rfl, Or.inr (Or.inr (Or.inl ⟨hen, hres⟩))⟩
        | ok hosts =>
          rcases h3 : extract_step config.include_datastores src.extract_datastores .extractDatastores with ⟨r3, t3⟩
          simp only [h3] at hnone ⊢
          cases r3 with
          | error e =>
            obtain ⟨hen, hres⟩ := extract_step_error_inv h3
            exact ⟨rfl, Or.inr (Or.inr (Or.inr (Or.inl ⟨hen, hres⟩)))⟩
          | ok datastores =>
            rcases h4 : extract_step config.include_networks src.extract_networks .extractNetworks with ⟨r4, t4⟩
            simp only [h4] at hnone ⊢
            cases r4 with
            | error e =>
              obtain ⟨hen, hres⟩ := extract_step_error_inv h4
              exact ⟨rfl, Or.inr (Or.inr (Or.inr (Or.inr ⟨hen, hres⟩)))⟩
            | ok networks => simp at hnone
  · intro env config stop_obs crash profiles total completed i rest e hcrash
    refine ⟨?_, ?_, ?_⟩
    · simp only [scan_parallel_join, hcrash]
    · simp only [scan_parallel_join, hcrash]
    · have hlen := (scan_parallel_join_partition env config stop_obs crash
        profiles total (i :: rest) completed).2.2.2
      simpa using hlen

/-- C4 witness: a failed connect on a concrete profile ends in status
`Error`. -/
theorem scan_failure_error_state_witness :
    (scan_single wit_src_fail false wit_profile wit_cfg_all).profile.status =
      ConnectionStatus.error :=
  (scan_failure_error_state.1 wit_src_fail wit_profile wit_cfg_all (by decide)).1

/-- C5: a successful single-source scan leaves the profile `Done`, with
its found-counts equal to the lengths of the returned sequences, and
every record of all four returned sequences tagged with the profile's
display name. -/
theorem scan_success_state (src : SourceData) (stop_set : Bool)
    (p : ConnectionProfile) (config : ScanConfig) (inv : SimpleInventory)
    (h : (scan_single src stop_set p config).inventory = some inv) :
    (scan_single src stop_set p config).profile.status = .done ∧
    (scan_single src stop_set p config).profile.vms_found = inv.virtual_machines.length ∧
    (scan_single src stop_set p config).profile.hosts_found = inv.hosts.length ∧
    (scan_single src stop_set p config).profile.datastores_found = inv.datastores.length ∧
    (∀ r ∈ inv.virtual_machines, r.source_name = p.display_name) ∧
    (∀ r ∈ inv.hosts, r.source_name = p.display_name) ∧
    (∀ r ∈ inv.datastores, r.source_name = p.display_name) ∧
    (∀ r ∈ inv.networks, r.source_name = p.display_name) := by
  obtain ⟨vms, hosts, ds, nets, hinv, hprof, hcalls, hdv, hdh, hdd, hdn⟩ :=
    scan_single_success_shape src stop_set p config inv h
  subst hinv
  rw [hprof]
  refine ⟨rfl, ?_, ?_, ?_, ?_, ?_, ?_, ?_⟩
  · simp [tag_inventory]
  · simp [tag_inventory]
  · simp [tag_inventory]
  · intro r hr
    simp only [tag_inventory, List.mem_map] at hr
    obtain ⟨r0, _, hr0⟩ := hr
    rw [← hr0]
    rfl
  · intro r hr
    simp only [tag_inventory, List.mem_map] at hr
    obtain ⟨r0, _, hr0⟩ := hr
    rw [← hr0]
    rfl
  · intro r hr
    simp only [tag_inventory, List.mem_map] at hr
    obtain ⟨r0, _, hr0⟩ := hr
    rw [← hr0]
    rfl
  · intro r hr
    simp only [tag_inventory, List.mem_map] at hr
    obtain ⟨r0, _, hr0⟩ := hr
    rw [← hr0]
    rfl

/-- C5 witness: a concrete successful scan ends `Done`. -/
theorem scan_success_state_witness :
    (scan_single wit_src_ok false wit_profile wit_cfg_all).profile.status =
      ConnectionStatus.done :=
  (scan_success_state wit_src_ok false wit_profile wit_cfg_all
    ((scan_single wit_src_ok false wit_profile wit_cfg_all).inventory.getD default)
    (by decide)).1

/-- C6: on a successful single-source scan, an extraction operation is
invoked exactly when its config toggle is enabled, every disabled
category contributes an empty sequence (the result always carries all
four sequences by construction), and connect/disconnect are both
invoked. -/
theorem scan_toggles_exact (src : SourceData) (stop_set : Bool)
    (p : ConnectionProfile) (config : ScanConfig) (inv : SimpleInventory)
    (h : (scan_single src stop_set p config).inventory = some inv) :
    (SvcOp.extractVms ∈ (scan_single src stop_set p config).calls ↔ config.include_vms = true) ∧
    (SvcOp.extractHosts ∈ (scan_single src stop_set p config).calls ↔ config.include_hosts = true) ∧
    (SvcOp.extractDatastores ∈ (scan_single src stop_set p config).calls ↔ config.include_datastores = true) ∧
    (SvcOp.extractNetworks ∈ (scan_single src stop_set p config).calls ↔ config.include_networks = true) ∧
    (config.include_vms = false → inv.virtual_machines = []) ∧
    (config.include_hosts = false → inv.hosts = []) ∧
    (config.include_datastores = false → inv.datastores = []) ∧
    (config.include_networks = false → inv.networks = []) ∧
    SvcOp.connect ∈ (scan_single src stop_set p config).calls ∧
    SvcOp.disconnect ∈ (scan_single src stop_set p config).calls := by
  obtain ⟨vms, hosts, ds, nets, hinv, hprof, hcalls, hdv, hdh, hdd, hdn⟩ :=
    scan_single_success_shape src stop_set p config inv h
  subst hinv
  refine ⟨?_, ?_, ?_, ?_, ?_, ?_, ?_, ?_, ?_, ?_⟩
  · rw [hcalls]
    by_cases hv : config.include_vms <;> by_cases hh : config.include_hosts <;>
      by_cases hd : config.include_datastores <;> by_cases hn : config.include_networks <;>
      simp [hv, hh, hd, hn]
  · rw [hcalls]
    by_cases hv : config.include_vms <;> by_cases hh : config.include_hosts <;>
      by_cases hd : config.include_datastores <;> by_cases hn : config.include_networks <;>
      simp [hv, hh, hd, hn]
  · rw [hcalls]
    by_cases hv : config.include_vms <;> by_cases hh : config.include_hosts <;>
      by_cases hd : config.include_datastores <;> by_cases hn : config.include_networks <;>
      simp [hv, hh, hd, hn]
  · rw [hcalls]
    by_cases hv : config.include_vms <;> by_cases hh : config.include_hosts <;>
      by_cases hd : config.include_datastores <;> by_cases hn : config.include_networks <;>
      simp [hv, hh, hd, hn]
  · intro hfalse
    simp [tag_inventory, hdv hfalse]
  · intro hfalse
    simp [tag_inventory, hdh hfalse]
  · intro hfalse
    simp [tag_inventory, hdd hfalse]
  · intro hfalse
    simp [tag_inventory, hdn hfalse]
  · rw [hcalls]
    simp
  · rw [hcalls]
    simp

/-- C6 witness (Scenario D): VMs off / hosts on against a source with
10 VMs and 2 hosts yields an empty VM sequence and 2 hosts. -/
theorem scan_toggles_exact_witness :
    ((scan_single wit_src_ok false wit_profile wit_cfg_d).inventory.getD default).virtual_machines = [] ∧
    ((scan_single wit_src_ok false wit_profile wit_cfg_d).inventory.getD default).hosts.length = 2 :=
  ⟨(scan_toggles_exact wit_src_ok false wit_profile wit_cfg_d
      ((scan_single wit_src_ok false wit_profile wit_cfg_d).inventory.getD default)
      (by decide)).2.2.2.2.1 rfl,
    by decide⟩

/-- C1 (amended): the success list is exactly the dispatched profiles
that ended `Done`, each of which is stored in the source mapping under
its id (in order); the failure list is exactly the dispatched profiles
that did not end `Done` — which includes profiles whose `_scan_single`
honoured cancellation at entry (status `Skipped`) — and
`len(completed_profiles) + len(failed_profiles)` equals N minus the
number of profiles never dispatched because the sequential loop-head
cancellation check fired (in parallel mode every profile is dispatched
and lands in exactly one of the two lists). -/
theorem run_scan_partition (env : ConnectionProfile → SourceData)
    (config : ScanConfig) (stop : Nat → Bool) (stop_obs : Nat → Bool)
    (crash : Nat → Option String) (order : List Nat)
    (profiles : List ConnectionProfile)
    (horder : order.length = profiles.length) :
    (run_scan env config stop stop_obs crash order profiles).result.completed_profiles =
      (run_scan env config stop stop_obs crash order profiles).dispatched.filter
        (fun q => decide (q.status = .done)) ∧
    (run_scan env config stop stop_obs crash order profiles).result.failed_profiles =
      (run_scan env config stop stop_obs crash order profiles).dispatched.filter
        (fun q => !(decide (q.status = .done))) ∧
    (run_scan env config stop stop_obs crash order profiles).result.results_by_source.map Prod.fst =
      (run_scan env config stop stop_obs crash order profiles).result.completed_profiles.map
        (fun q => q.id) ∧
    (run_scan env config stop stop_obs crash order profiles).result.completed_profiles.length +
      (run_scan env config stop stop_obs crash order profiles).result.failed_profiles.length +
      (run_scan env config stop stop_obs crash order profiles).seq_remaining.length =
      profiles.length := by
  unfold run_scan
  by_cases hpar : config.parallel = true ∧ 1 < profiles.length
  · rw [if_pos hpar]
    obtain ⟨p1, p2, p3, p4⟩ := scan_parallel_join_partition env config stop_obs crash
      profiles profiles.length order 0
    refine ⟨?_, ?_, ?_, ?_⟩
    · simpa [scan_parallel] using p1
    · simpa [scan_parallel] using p2
    · simpa [scan_parallel] using p3
    · have hpart := filter_length_partition
        (fun q => decide (q.status = ConnectionStatus.done))
        (scan_parallel_join env config stop_obs crash profiles profiles.length 0 order).joined
      simp only [scan_parallel]
      rw [p1, p2]
      simp only [List.length_nil]
      omega
  · rw [if_neg hpar]
    obtain ⟨s1, s2, s3, s4⟩ := scan_sequential_go_partition env config stop
      profiles.length profiles 0 0
    refine ⟨?_, ?_, ?_, ?_⟩
    · simpa [scan_sequential] using s1
    · simpa [scan_sequential] using s2
    · simpa [scan_sequential] using s3
    · have hpart := filter_length_partition
        (fun q => decide (q.status = ConnectionStatus.done))
        (scan_sequential_go env config stop profiles.length 0 0 profiles).processed
      simp only [scan_sequential]
      rw [s1, s2]
      omega

/-- C1 witness: a concrete one-profile sequential run accounts for its
single profile. -/
theorem run_scan_partition_witness :
    (run_scan (fun _ => wit_src_ok) wit_cfg_all (fun _ => false) (fun _ => false)
        (fun _ => none) [0] [wit_profile]).result.completed_profiles.length +
      (run_scan (fun _ => wit_src_ok) wit_cfg_all (fun _ => false) (fun _ => false)
        (fun _ => none) [0] [wit_profile]).result.failed_profiles.length +
      (run_scan (fun _ => wit_src_ok) wit_cfg_all (fun _ => false) (fun _ => false)
        (fun _ => none) [0] [wit_profile]).seq_remaining.length = 1 :=
  (run_scan_partition (fun _ => wit_src_ok) wit_cfg_all (fun _ => false) (fun _ => false)
    (fun _ => none) [0] [wit_profile] rfl).2.2.2

/-- C1 counterexample: in a parallel run with cancellation signalled
before any task starts, both profiles are skipped before being
attempted (status `Skipped`) yet both are appended to
`failed_profiles` — they are not absent from both lists, and
`len(completed) + len(failed)` is 2, not N minus the number of
profiles skipped by pre-run cancellation (which would be 0). -/
theorem run_scan_skip_counterexample :
    ((run_scan (fun _ => wit_src_ok) cx_cfg_par (fun _ => false) (fun _ => true)
        (fun _ => none) [0, 1] cx_profiles).dispatched.filter
        (fun q => decide (q.status = ConnectionStatus.skipped))).length = 2 ∧
    (run_scan (fun _ => wit_src_ok) cx_cfg_par (fun _ => false) (fun _ => true)
        (fun _ => none) [0, 1] cx_profiles).result.completed_profiles.length = 0 ∧
    ((run_scan (fun _ => wit_src_ok) cx_cfg_par (fun _ => false) (fun _ => true)
        (fun _ => none) [0, 1] cx_profiles).result.failed_profiles.map
        (fun q => q.status)) = [ConnectionStatus.skipped, ConnectionStatus.skipped] ∧
    ¬((run_scan (fun _ => wit_src_ok) cx_cfg_par (fun _ => false) (fun _ => true)
        (fun _ => none) [0, 1] cx_profiles).result.completed_profiles.length +
      (run_scan (fun _ => wit_src_ok) cx_cfg_par (fun _ => false) (fun _ => true)
        (fun _ => none) [0, 1] cx_profiles).result.failed_profiles.length =
      cx_profiles.length -
        ((run_scan (fun _ => wit_src_ok) cx_cfg_par (fun _ => false) (fun _ => true)
          (fun _ => none) [0, 1] cx_profiles).dispatched.filter
          (fun q => decide (q.status = ConnectionStatus.skipped))).length) := by
  decide

/-- C2 (amended): in an uncancelled sequential run over N ≥ 1 profiles
the percentage stream has one start and one completion event per
profile, with profile i's start event at `i/N*100` and its completion
event at `(i+1)/N*100`; the stream is non-decreasing (adjacent events
may be equal: a profile's completion shares its percentage with the
next profile's start), and it reaches exactly 100 only at the last
profile's completion event. -/
theorem seq_progress_monotone (env : ConnectionProfile → SourceData)
    (config : ScanConfig) (profiles : List ConnectionProfile)
    (h : 0 < profiles.length) :
    ((scan_sequential env config (fun _ => false) profiles.length profiles).events.map
        (fun e => e.progress_pct)).length = 2 * profiles.length ∧
    (∀ i, i < profiles.length →
      ((scan_sequential env config (fun _ => false) profiles.length profiles).events.map
        (fun e => e.progress_pct)).getD (2 * i) 0 =
        ((i : ℚ) / (profiles.length : ℚ)) * 100 ∧
      ((scan_sequential env config (fun _ => false) profiles.length profiles).events.map
        (fun e => e.progress_pct)).getD (2 * i + 1) 0 =
        (((i : ℚ) + 1) / (profiles.length : ℚ)) * 100) ∧
    List.Chain' (· ≤ ·)
      ((scan_sequential env config (fun _ => false) profiles.length profiles).events.map
        (fun e => e.progress_pct)) ∧
    (∀ j, j < 2 * profiles.length - 1 →
      ((scan_sequential env config (fun _ => false) profiles.length profiles).events.map
        (fun e => e.progress_pct)).getD j 0 < 100) ∧
    ((scan_sequential env config (fun _ => false) profiles.length profiles).events.map
        (fun e => e.progress_pct)).getD (2 * profiles.length - 1) 0 = 100 := by
  have hmap := scan_sequential_go_pcts env config profiles.length profiles 0 0
  have hN : (0 : ℚ) < (profiles.length : ℚ) := by exact_mod_cast h
  unfold scan_sequential
  refine ⟨?_, ?_, ?_, ?_, ?_⟩
  · rw [hmap, seq_pcts_length]
  · intro i hi
    constructor
    · rw [hmap, seq_pcts_getD _ _ _ _ (by omega)]
      have he : 0 + (2 * i + 1) / 2 = i := by omega
      rw [he]
    · rw [hmap, seq_pcts_getD _ _ _ _ (by omega)]
      have he : 0 + (2 * i + 1 + 1) / 2 = i + 1 := by omega
      rw [he]
      push_cast
      ring
  · rw [hmap]
    exact seq_pcts_chain profiles.length h profiles.length 0
  · intro j hj
    rw [hmap, seq_pcts_getD _ _ _ _ (by omega)]
    have hk : 0 + (j + 1) / 2 < profiles.length := by omega
    have hkq : ((0 + (j + 1) / 2 : Nat) : ℚ) < (profiles.length : ℚ) := by
      exact_mod_cast hk
    rw [div_mul_eq_mul_div, div_lt_iff hN]
    linarith
  · rw [hmap, seq_pcts_getD _ _ _ _ (by omega)]
    have he : 0 + (2 * profiles.length - 1 + 1) / 2 = profiles.length := by omega
    rw [he, div_self (ne_of_gt hN)]
    norm_num

/-- C2 witness: the percentage stream of a concrete one-profile
sequential run is non-decreasing. -/
theorem seq_progress_monotone_witness :
    List.Chain' (· ≤ ·)
      ((scan_sequential (fun _ => wit_src_ok) wit_cfg_all (fun _ => false) 1
          [wit_profile]).events.map (fun e => e.progress_pct)) :=
  (seq_progress_monotone (fun _ => wit_src_ok) wit_cfg_all [wit_profile]
    (by decide)).2.2.1

/-- C2 counterexample: a sequential run over two succeeding profiles
emits the percentages 0, 50, 50, 100 — profile 0's completion event
and profile 1's start event are equal, so the stream of all emitted
percentages is not strictly increasing. -/
theorem seq_progress_strict_counterexample :
    ((scan_sequential (fun _ => wit_src_ok) wit_cfg_all (fun _ => false) 2
        cx_profiles).events.map (fun e => e.progress_pct)) = [0, 50, 50, 100] ∧
    ¬ List.Chain' (· < ·)
      ((scan_sequential (fun _ => wit_src_ok) wit_cfg_all (fun _ => false) 2
        cx_profiles).events.map (fun e => e.progress_pct)) := by
  have hp : ((scan_sequential (fun _ => wit_src_ok) wit_cfg_all (fun _ => false) 2
      cx_profiles).events.map (fun e => e.progress_pct)) = [0, 50, 50, 100] := by
    unfold scan_sequential
    rw [scan_sequential_go_pcts, show cx_profiles.length = 2 from rfl]
    norm_num [seq_pcts]
  refine ⟨hp, ?_⟩
  rw [hp]
  intro hc
  have h2 := (List.chain'_cons.mp hc).2
  have h3 := (List.chain'_cons.mp h2).1
  exact absurd h3 (by norm_num)

theorem progress_filter_is_complete (evs : List ScanProgress) :
    (evs.map CallbackEvent.progress).filter CallbackEvent.is_complete = [] := by
  induction evs with
  | nil => rfl
  | cons e r ih => simpa [List.filter_cons, CallbackEvent.is_complete] using ih

/-- C3: every run invokes the completion callback exactly once — among
all callback invocations exactly one is a completion, it carries the
consolidated result built by that run, and it is the final callback —
regardless of per-source outcomes, crashes or cancellation. -/
theorem run_scan_completion_once (env : ConnectionProfile → SourceData)
    (config : ScanConfig) (stop : Nat → Bool) (stop_obs : Nat → Bool)
    (crash : Nat → Option String) (order : List Nat)
    (profiles : List ConnectionProfile) :
    (run_scan env config stop stop_obs crash order profiles).callbacks.filter
        CallbackEvent.is_complete =
      [CallbackEvent.complete (run_scan env config stop stop_obs crash order profiles).result] ∧
    (run_scan env config stop stop_obs crash order profiles).callbacks.getLast? =
      some (CallbackEvent.complete
        (run_scan env config stop stop_obs crash order profiles).result) := by
  unfold run_scan
  by_cases hpar : config.parallel = true ∧ 1 < profiles.length
  · rw [if_pos hpar]
    constructor
    · rw [List.filter_append, progress_filter_is_complete]
      simp [CallbackEvent.is_complete]
    · simp
  · rw [if_neg hpar]
    constructor
    · rw [List.filter_append, progress_filter_is_complete]
      simp [CallbackEvent.is_complete]
    · simp

/-- C7: the consolidated aggregates are the sums of the corresponding
sequence lengths across all stored per-source inventories, `has_data`
holds exactly when the source mapping is non-empty, and Scenario A (3
sequential successes with 5/3/8 VMs) yields `total_vms = 16`, three
completed profiles and no failed ones. -/
theorem consolidated_totals :
    (∀ r : ConsolidatedResult,
      r.total_vms = (r.results_by_source.map (fun kv => kv.2.virtual_machines.length)).sum ∧
      r.total_hosts = (r.results_by_source.map (fun kv => kv.2.hosts.length)).sum ∧
      r.total_datastores = (r.results_by_source.map (fun kv => kv.2.datastores.length)).sum ∧
      (r.has_data = true ↔ 0 < r.results_by_source.length)) ∧
    (run_scan sa_env wit_cfg_all (fun _ => false) (fun _ => false) (fun _ => none)
      [] sa_profiles).result.total_vms = 16 ∧
    (run_scan sa_env wit_cfg_all (fun _ => false) (fun _ => false) (fun _ => none)
      [] sa_profiles).result.completed_profiles.length = 3 ∧
    (run_scan sa_env wit_cfg_all (fun _ => false) (fun _ => false) (fun _ => none)
      [] sa_profiles).result.failed_profiles = [] := by
  refine ⟨?_, by decide, by decide, by decide⟩
  intro r
  refine ⟨rfl, rfl, rfl, ?_⟩
  cases hr : r.results_by_source with
  | nil => simp [ConsolidatedResult.has_data, hr]
  | cons kv rest => simp [ConsolidatedResult.has_data, hr]

/-- C8: the parallel strategy runs exactly when `config.parallel` holds
and more than one profile is targeted, and then the worker pool is
created with exactly `min(config.max_workers, N)` workers, which is
bounded by both `config.max_workers` and `N`. -/
theorem run_scan_strategy_pool (env : ConnectionProfile → SourceData)
    (config : ScanConfig) (stop : Nat → Bool) (stop_obs : Nat → Bool)
    (crash : Nat → Option String) (order : List Nat)
    (profiles : List ConnectionProfile) :
    (run_scan env config stop stop_obs crash order profiles).used_parallel =
      (config.parallel && decide (1 < profiles.length)) ∧
    (run_scan env config stop stop_obs crash order profiles).pool_size =
      (if config.parallel = true ∧ 1 < profiles.length then
        some (min config.max_workers profiles.length) else none) ∧
    (∀ w, (run_scan env config stop stop_obs crash order profiles).pool_size = some w →
      w ≤ config.max_workers ∧ w ≤ profiles.length) := by
  unfold run_scan
  by_cases hpar : config.parallel = true ∧ 1 < profiles.length
  · rw [if_pos hpar]
    refine ⟨by simp [hpar.1, hpar.2], by simp [scan_parallel, hpar], ?_⟩
    intro w hw
    simp only [scan_parallel, Option.some.injEq] at hw
    subst hw
    exact ⟨Nat.min_le_left _ _, Nat.min_le_right _ _⟩
  · rw [if_neg hpar]
    refine ⟨?_, by simp [hpar], ?_⟩
    · cases hp : config.parallel with
      | false => simp
      | true =>
        have hn : ¬(1 < profiles.length) := fun hl => hpar ⟨hp, hl⟩
        simp [hn]
    · intro w hw
      simp at hw

/-- C8 witness: with 2 profiles and `max_workers = 4` the pool size 2
is within both bounds. -/
theorem run_scan_strategy_pool_witness :
    2 ≤ cx_cfg_par.max_workers ∧ 2 ≤ cx_profiles.length :=
  (run_scan_strategy_pool (fun _ => wit_src_ok) cx_cfg_par (fun _ => false)
    (fun _ => false) (fun _ => none) [0, 1] cx_profiles).2.2 2 (by decide)

/-- C9: across any sequence of registry operations from the manager's
empty registry — profiles entering via `add_profile` carry the fresh
identifier assigned at creation — an identifier determines at most one
profile: the registry's id list is duplicate-free after every
operation, in particular after every `add_profile`. -/
theorem registry_ids_unique (ops : List RegistryOp) :
    ((registry_run ops).profiles.map (fun p => p.id)).Nodup :=
  (registry_run_inv ops).1

/-- C9 witness: a concrete add/add/remove/add sequence keeps ids
duplicate-free. -/
theorem registry_ids_unique_witness :
    ((registry_run [RegistryOp.add "a", RegistryOp.add "b", RegistryOp.remove 0,
        RegistryOp.add "c"]).profiles.map (fun p => p.id)).Nodup :=
  registry_ids_unique [RegistryOp.add "a", RegistryOp.add "b", RegistryOp.remove 0,
    RegistryOp.add "c"]

/-- C10: on the fallback path the credential helpers are mutually
inverse — decrypting an encrypted password recovers exactly the
original byte sequence. -/
theorem decrypt_encrypt_round_trip (password : List Nat)
    (h : ∀ b ∈ password, b < 256) :
    decrypt_password (encrypt_password password) = some password :=
  b64_round_trip password h

/-- C10 witness: round trip on the concrete bytes of "Hello". -/
theorem decrypt_encrypt_round_trip_witness :
    decrypt_password (encrypt_password [72, 101, 108, 108, 111]) =
      some [72, 101, 108, 108, 111] :=
  decrypt_encrypt_round_trip [72, 101, 108, 108, 111] (by decide)

end VMwareInventory
